import Mathlib

/-!
Shallow embedding of the token-budget trimming and limit-resolution
subsystem of `ra_aid/anthropic_token_limiter.py`, together with the
collaborator interfaces it consumes (configuration store, model-metadata
provider, token counters, static fallback table).
-/

/-- A chat message: a role and textual content.  Identity is positional and
messages are immutable; the trimmer only selects sub-sequences. -/
structure Msg where
  role : String
  content : String
  deriving DecidableEq, Repr

/-- `estimate_messages_tokens`: 0 for the empty sequence, otherwise the sum of
the per-message estimator over all messages.  The per-message estimator
(`CiaynAgent._estimate_tokens`, an external local heuristic) is abstracted as
the parameter `est`. -/
def estimate_messages_tokens (est : Msg → Nat) (messages : List Msg) : Nat :=
  (messages.map est).sum

/-- Modelled from the spec: the "last"-strategy trimming loop shared by
`langchain_core.messages.trim_messages` and `anthropic_trim_messages`
(`ra_aid.anthropic_message_utils`, not among the reviewed sources).  Per
§4.3 of the design: starting from the most recent message and working
backwards, accumulate messages while the total token count of the kept
suffix stays within the budget, stopping before exceeding it; messages are
never split.  `revRemaining` is the part of the history still to examine,
most recent first; `acc` is the suffix kept so far. -/
def accumulate_last (tc : List Msg → Nat) (max_tokens : Int) :
    List Msg → List Msg → List Msg
  | [], acc => acc
  | m :: revRemaining, acc =>
    if (tc (m :: acc) : Int) ≤ max_tokens then
      accumulate_last tc max_tokens revRemaining (m :: acc)
    else acc

/-- Modelled from the spec: "last"-strategy trim of a message list to a token
budget (no message splitting). -/
def trim_last (tc : List Msg → Nat) (max_tokens : Int) (messages : List Msg) :
    List Msg :=
  accumulate_last tc max_tokens messages.reverse []

/-- Modelled from the spec: `anthropic_trim_messages` (Policy A, §4.3 of the
design; the function itself lives in `ra_aid.anthropic_message_utils`, not
among the reviewed sources).  The first `num_messages_to_keep` messages are
always retained; the budget they consume is subtracted from the total budget
before the remainder is trimmed with the "last" strategy. -/
def anthropic_trim_messages (tc : List Msg → Nat) (max_tokens : Int)
    (num_messages_to_keep : Nat) (messages : List Msg) : List Msg :=
  messages.take num_messages_to_keep ++
    trim_last tc (max_tokens - (tc (messages.take num_messages_to_keep) : Int))
      (messages.drop num_messages_to_keep)

/-- `state_modifier`: trims the state's message list via
`anthropic_trim_messages`, always keeping the first 2 messages.  The litellm
token-counter wrapper built from the model name is abstracted as `tc`. -/
def state_modifier (tc : List Msg → Nat) (max_input_tokens : Int)
    (messages : List Msg) : List Msg :=
  match messages with
  | [] => []
  | _ :: _ => anthropic_trim_messages tc max_input_tokens 2 messages

/-- `sonnet_35_state_modifier`: unconditionally keeps the first message,
subtracts its estimated token cost from the budget and trims the remaining
messages with the "last" strategy, using the local estimator. -/
def sonnet_35_state_modifier (est : Msg → Nat) (max_input_tokens : Int)
    (messages : List Msg) : List Msg :=
  match messages with
  | [] => []
  | first :: remaining =>
    first :: trim_last (estimate_messages_tokens est)
      (max_input_tokens - (estimate_messages_tokens est [first] : Int)) remaining

/-- A concrete per-message estimator used to exercise the definitions on
concrete inputs: the length of the content string. -/
def charCount (m : Msg) : Nat :=
  m.content.length

/-- A configuration dictionary: role-qualified string keys mapped to string
values. -/
abbrev Config := List (String × String)

/-- `config.get(key, "")`: the value bound to `key`, or the empty string when
the key is absent. -/
def cfgGet (config : Config) (key : String) : String :=
  (config.lookup key).getD ""

/-- Python `a or b` on strings: `b` when `a` is falsy (empty), else `a`. -/
def pyOr (a b : String) : String :=
  if a = "" then b else a

/-- `get_provider_and_model_for_agent_type`: role-specific
`{role}_provider` / `{role}_model` keys take precedence for the "research"
and "planner" agent types; any other agent type reads the generic
`provider` / `model` keys. -/
def get_provider_and_model_for_agent_type (config : Config)
    (agent_type : String) : String × String :=
  if agent_type = "research" then
    (pyOr (cfgGet config "research_provider") (cfgGet config "provider"),
     pyOr (cfgGet config "research_model") (cfgGet config "model"))
  else if agent_type = "planner" then
    (pyOr (cfgGet config "planner_provider") (cfgGet config "provider"),
     pyOr (cfgGet config "planner_model") (cfgGet config "model"))
  else
    (cfgGet config "provider", cfgGet config "model")

/-- Does `hay.data` contain `pat` as a contiguous sub-list?  Helper for the
substring test. -/
def containsAux (pat : List Char) : List Char → Bool
  | [] => pat.isEmpty
  | c :: rest => pat.isPrefixOf (c :: rest) || containsAux pat rest

/-- Substring test on strings. -/
def strContains (hay pat : String) : Bool :=
  containsAux pat.data hay.data

/-- Modelled from the spec: `is_claude_37` (`ra_aid.model_detection`, not among
the reviewed sources); per §4.1 it recognises the "extended reasoning"
Claude 3.7 model family from the model identifier. -/
def is_claude_37 (model_name : String) : Bool :=
  strContains model_name "claude-3.7" || strContains model_name "claude3.7" ||
    strContains model_name "claude-3-7"

/-- A live chat-model handle (`BaseChatModel`): an optional model identifier
attribute and an optional maximum-output-token allocation.  A `none` field
models the attribute being absent (`hasattr` false / `None`). -/
structure ChatModel where
  model : Option String
  max_tokens : Option Nat
  deriving DecidableEq, Repr

/-- `adjust_claude_37_token_limit`: when `max_input_tokens` is falsy (`None`
or 0) it is returned unchanged; otherwise, when a live handle is supplied
whose identifier is in the Claude 3.7 family and which carries a truthy
`max_tokens`, the result is `max_input_tokens - max_tokens`; otherwise the
original limit. -/
def adjust_claude_37_token_limit (max_input_tokens : Option Int)
    (model : Option ChatModel) : Option Int :=
  match max_input_tokens with
  | none => none
  | some w =>
    if w = 0 then some 0
    else
      match model with
      | none => some w
      | some m =>
        match m.model with
        | none => some w
        | some name =>
          if is_claude_37 name then
            match m.max_tokens with
            | none => some w
            | some mt => if mt = 0 then some w else some (w - (mt : Int))
          else some w

/-- `model_name.replace("-", "")`: remove every hyphen character. -/
def removeHyphens (s : String) : String :=
  String.mk (s.data.filter (fun c => c ≠ '-'))

/-- A Python exception escaping the resolution body past the two inner
`except` blocks (e.g. a `KeyError` from a fallback-table record that lacks
the `token_limit` key). -/
inductive PyErr where
  | keyError (key : String) : PyErr
  deriving DecidableEq, Repr

/-- The collaborators `get_model_token_limit` consumes:
`repoConfig` is the configuration-store snapshot (`none` models
`get_config_repository().get_all()` raising `RuntimeError`, its documented
failure mode when no session context is active); `modelInfo` is the external
model-metadata provider (`litellm.get_model_info`), returning the optional
`max_input_tokens` field of the record or raising; `models_params` is the
static fallback table, provider → normalized model name → the optional
`token_limit` field of the record (`none` models a record lacking the key). -/
structure Env where
  repoConfig : Option Config
  modelInfo : String → Except String (Option Int)
  models_params : List (String × List (String × Option Int))

/-- The configuration actually used for resolution: the store snapshot when
obtainable, else the caller-supplied `config`. -/
def effective_config (env : Env) (config : Config) : Config :=
  match env.repoConfig with
  | some c => c
  | none => config

/-- The composite identifier handed to the metadata provider: `model_name`
alone when the provider string is falsy, else `"{provider}/{model_name}"`. -/
def composite_id (provider model_name : String) : String :=
  if provider = "" then model_name else provider ++ "/" ++ model_name

/-- The metadata-provider stage: a truthy `max_input_tokens` from
`get_model_info`, or `none` when the provider raised or the value was
missing, zero or `None`. -/
def litellm_limit (env : Env) (provider_model : String) : Option Int :=
  match env.modelInfo provider_model with
  | Except.ok (some v) => if v = 0 then none else some v
  | Except.ok none => none
  | Except.error _ => none

/-- `models_params.get(provider, {})` followed by the membership test on the
normalized name: `none` when the provider or the name has no entry, else the
record's optional `token_limit` field. -/
def fallback_lookup (table : List (String × List (String × Option Int)))
    (provider normalized_name : String) : Option (Option Int) :=
  ((table.lookup provider).getD []).lookup normalized_name

/-- The fallback-table stage of `get_model_token_limit`: look up the
hyphen-stripped model name under the provider; a present record yields its
`token_limit` (a record lacking the key raises `KeyError`); a missing entry
yields limit `None`.  Either limit then passes through the Claude 3.7
adjustment. -/
def fallback_stage (env : Env) (provider model_name : String)
    (model : Option ChatModel) : Except PyErr (Option Int) :=
  match fallback_lookup env.models_params provider (removeHyphens model_name) with
  | some (some v) => Except.ok (adjust_claude_37_token_limit (some v) model)
  | some none => Except.error (PyErr.keyError "token_limit")
  | none => Except.ok (adjust_claude_37_token_limit none model)

/-- The body of `get_model_token_limit` inside the top-level `try`: resolve
the provider/model pair from the effective configuration, query the metadata
provider, and on a truthy value return it adjusted; otherwise run the
fallback-table stage. -/
def get_model_token_limit_run (env : Env) (config : Config)
    (agent_type : String) (model : Option ChatModel) : Except PyErr (Option Int) :=
  let pm := get_provider_and_model_for_agent_type (effective_config env config)
    agent_type
  match litellm_limit env (composite_id pm.1 pm.2) with
  | some v => Except.ok (adjust_claude_37_token_limit (some v) model)
  | none => fallback_stage env pm.1 pm.2 model

/-- `get_model_token_limit`: the resolution body wrapped in the top-level
`try/except` — any exception escaping the body yields `None`. -/
def get_model_token_limit (env : Env) (config : Config) (agent_type : String)
    (model : Option ChatModel) : Option Int :=
  match get_model_token_limit_run env config agent_type model with
  | Except.ok v => v
  | Except.error _ => none

/-- The result of `accumulate_last` is the accumulator extended on the left by
some suffix of the reversed worklist. -/
theorem accumulate_last_shape (tc : List Msg → Nat) (b : Int) :
    ∀ (revRemaining acc : List Msg), ∃ t,
      accumulate_last tc b revRemaining acc = t ++ acc ∧ t <:+ revRemaining.reverse := by
  intro revRemaining
  induction revRemaining with
  | nil =>
    intro acc
    exact ⟨[], rfl, List.nil_suffix⟩
  | cons m rest ih =>
    intro acc
    by_cases h : (tc (m :: acc) : Int) ≤ b
    · obtain ⟨t, ht, hsuf⟩ := ih (m :: acc)
      refine ⟨t ++ [m], ?_, ?_⟩
      · simp only [accumulate_last, if_pos h, ht, List.append_assoc,
          List.singleton_append]
      · obtain ⟨u, hu⟩ := hsuf
        exact ⟨u, by simp [List.reverse_cons, ← hu, List.append_assoc]⟩
    · exact ⟨[], by simp [accumulate_last, if_neg h], List.nil_suffix⟩

/-- The output of `trim_last` is a contiguous suffix of its input. -/
theorem trim_last_suffix (tc : List Msg → Nat) (b : Int) (messages : List Msg) :
    trim_last tc b messages <:+ messages := by
  obtain ⟨t, ht, hsuf⟩ := accumulate_last_shape tc b messages.reverse []
  rw [trim_last, ht, List.append_nil]
  simpa using hsuf

/-- If every candidate suffix fits in the budget, `accumulate_last` keeps the
whole worklist. -/
theorem accumulate_last_full (tc : List Msg → Nat) (b : Int) :
    ∀ (revRemaining acc : List Msg),
      (∀ t, t <:+ revRemaining.reverse → (tc (t ++ acc) : Int) ≤ b) →
      accumulate_last tc b revRemaining acc = revRemaining.reverse ++ acc := by
  intro revRemaining
  induction revRemaining with
  | nil =>
    intro acc _
    simp [accumulate_last]
  | cons m rest ih =>
    intro acc h
    have hm : (tc (m :: acc) : Int) ≤ b := by
      have := h [m] ⟨rest.reverse, by simp⟩
      simpa using this
    have hrec := ih (m :: acc) (fun t hsuf => by
      obtain ⟨u, hu⟩ := hsuf
      have := h (t ++ [m]) ⟨u, by simp [← hu, List.append_assoc]⟩
      simpa [List.append_assoc] using this)
    simp [accumulate_last, if_pos hm, hrec, List.reverse_cons, List.append_assoc]

/-- If every suffix of the input fits in the budget, `trim_last` keeps
everything. -/
theorem trim_last_full (tc : List Msg → Nat) (b : Int) (messages : List Msg)
    (h : ∀ t, t <:+ messages → (tc t : Int) ≤ b) :
    trim_last tc b messages = messages := by
  have hfull := accumulate_last_full tc b messages.reverse []
    (fun t hsuf => by
      have h1 : t <:+ messages := by simpa using hsuf
      simpa using h t h1)
  simpa [trim_last] using hfull

/-- A negative budget trims everything away. -/
theorem trim_last_of_neg (tc : List Msg → Nat) (b : Int) (hb : b < 0)
    (messages : List Msg) : trim_last tc b messages = [] := by
  rw [trim_last]
  cases h : messages.reverse with
  | nil => simp [accumulate_last]
  | cons m rest =>
    have hnot : ¬ ((tc [m] : Int) ≤ b) := by omega
    simp [accumulate_last, hnot]

/-- Estimated token totals are monotone under taking suffixes. -/
theorem sum_le_of_suffix (est : Msg → Nat) {t l : List Msg} (h : t <:+ l) :
    estimate_messages_tokens est t ≤ estimate_messages_tokens est l := by
  obtain ⟨u, hu⟩ := h
  subst hu
  simp only [estimate_messages_tokens, List.map_append, List.sum_append]
  omega

/-- `get_provider_and_model_for_agent_type` on the "research" agent type. -/
theorem gp_research (config : Config) :
    get_provider_and_model_for_agent_type config "research" =
      (pyOr (cfgGet config "research_provider") (cfgGet config "provider"),
       pyOr (cfgGet config "research_model") (cfgGet config "model")) := by
  rw [get_provider_and_model_for_agent_type, if_pos rfl]

/-- `get_provider_and_model_for_agent_type` on the "planner" agent type. -/
theorem gp_planner (config : Config) :
    get_provider_and_model_for_agent_type config "planner" =
      (pyOr (cfgGet config "planner_provider") (cfgGet config "provider"),
       pyOr (cfgGet config "planner_model") (cfgGet config "model")) := by
  rw [get_provider_and_model_for_agent_type,
    if_neg (by decide : ¬ ("planner" = "research")), if_pos rfl]

/-- `get_provider_and_model_for_agent_type` on the "default" agent type. -/
theorem gp_default (config : Config) :
    get_provider_and_model_for_agent_type config "default" =
      (cfgGet config "provider", cfgGet config "model") := by
  rw [get_provider_and_model_for_agent_type,
    if_neg (by decide : ¬ ("default" = "research")),
    if_neg (by decide : ¬ ("default" = "planner"))]

/-- C1: `get_model_token_limit` is a total function into `Option Int` over
every environment, configuration, agent type and model handle, and whenever
the resolution body escapes with an exception, it returns `None` instead of
raising to its caller. -/
theorem claim_C1_resolution_never_raises (env : Env) (config : Config)
    (agent_type : String) (model : Option ChatModel) (e : PyErr)
    (h : get_model_token_limit_run env config agent_type model = Except.error e) :
    get_model_token_limit env config agent_type model = none := by
  simp [get_model_token_limit, h]

/-- C1 witness: a fallback-table record lacking the `token_limit` key makes
the resolution body raise `KeyError`, and the function returns `None`. -/
theorem claim_C1_witness :
    get_model_token_limit_run
      ⟨none, fun _ => Except.error "404", [("openai", [("gpt5", none)])]⟩
      [("provider", "openai"), ("model", "gpt-5")] "default" none =
      Except.error (PyErr.keyError "token_limit") ∧
    get_model_token_limit
      ⟨none, fun _ => Except.error "404", [("openai", [("gpt5", none)])]⟩
      [("provider", "openai"), ("model", "gpt-5")] "default" none = none := by
  constructor
  · rfl
  · exact claim_C1_resolution_never_raises _ _ _ _ (PyErr.keyError "token_limit") rfl

/-- C9: when the configuration store is unavailable (its documented
`RuntimeError` failure), resolution silently proceeds with the
caller-supplied config: the outcome is identical to that of an environment
whose store returns exactly that config. -/
theorem claim_C9_config_fallback (env : Env) (config : Config)
    (agent_type : String) (model : Option ChatModel)
    (h : env.repoConfig = none) :
    get_model_token_limit env config agent_type model =
      get_model_token_limit ⟨some config, env.modelInfo, env.models_params⟩
        config agent_type model := by
  obtain ⟨rc, mi, mp⟩ := env
  subst h
  rfl

/-- C9 witness: a concrete environment with an unavailable configuration
store resolves exactly as if the store had returned the supplied config. -/
theorem claim_C9_witness :
    (Env.repoConfig ⟨none, fun _ => Except.error "no model info",
      [("anthropic", [("claude2", some 100000)])]⟩) = none ∧
    get_model_token_limit
      ⟨none, fun _ => Except.error "no model info",
        [("anthropic", [("claude2", some 100000)])]⟩
      [("provider", "anthropic"), ("model", "claude-2")] "default" none =
      get_model_token_limit
        ⟨some [("provider", "anthropic"), ("model", "claude-2")],
          fun _ => Except.error "no model info",
          [("anthropic", [("claude2", some 100000)])]⟩
        [("provider", "anthropic"), ("model", "claude-2")] "default" none :=
  ⟨rfl, claim_C9_config_fallback _ _ _ _ rfl⟩

/-- C3: `adjust_claude_37_token_limit` with a truthy `max_input_tokens` and a
live handle whose identifier is in the Claude 3.7 family carrying a truthy
maximum-output-token allocation returns `max_input_tokens` minus that
allocation; a falsy `max_input_tokens` (`None` or 0) is returned unchanged
with no adjustment. -/
theorem claim_C3_claude37_adjustment :
    (∀ (w : Int) (mt : Nat) (name : String), w ≠ 0 → mt ≠ 0 →
      is_claude_37 name = true →
      adjust_claude_37_token_limit (some w) (some ⟨some name, some mt⟩) =
        some (w - (mt : Int))) ∧
    (∀ model, adjust_claude_37_token_limit none model = none) ∧
    (∀ model, adjust_claude_37_token_limit (some 0) model = some 0) := by
  refine ⟨?_, ?_, ?_⟩
  · intro w mt name hw hmt hname
    simp [adjust_claude_37_token_limit, hw, hmt, hname]
  · intro model
    rfl
  · intro model
    simp [adjust_claude_37_token_limit]

/-- C3 witness: a reasoning-family handle with limit 200000 and output
allocation 64000 yields 136000. -/
theorem claim_C3_witness :
    (200000 : Int) ≠ 0 ∧ (64000 : Nat) ≠ 0 ∧
    is_claude_37 "claude-3-7-sonnet-20250219" = true ∧
    adjust_claude_37_token_limit (some 200000)
      (some ⟨some "claude-3-7-sonnet-20250219", some 64000⟩) = some 136000 := by
  refine ⟨by decide, by decide, by decide, ?_⟩
  have h := claim_C3_claude37_adjustment.1 200000 64000 "claude-3-7-sonnet-20250219"
    (by decide) (by decide) (by decide)
  rw [h]
  norm_num

/-- C10: the adjustment never returns a value above its `max_input_tokens`
argument, and when the output allocation meets or exceeds the (truthy) input
budget the adjusted result is zero or negative — neither clamped to a
positive value nor turned into `None`. -/
theorem claim_C10_adjustment_bounds :
    (∀ (mi : Option Int) (model : Option ChatModel) (v w : Int),
      adjust_claude_37_token_limit mi model = some v → mi = some w → v ≤ w) ∧
    (∀ (w : Int) (mt : Nat) (name : String), w ≠ 0 → mt ≠ 0 →
      is_claude_37 name = true → w ≤ (mt : Int) →
      adjust_claude_37_token_limit (some w) (some ⟨some name, some mt⟩) =
        some (w - (mt : Int)) ∧ w - (mt : Int) ≤ 0) := by
  constructor
  · intro mi model v w h hmi
    subst hmi
    simp only [adjust_claude_37_token_limit] at h
    repeat' split at h
    all_goals (injection h with h; omega)
  · intro w mt name hw hmt hname hle
    refine ⟨?_, by omega⟩
    simp [adjust_claude_37_token_limit, hw, hmt, hname]

/-- C10 witness: a non-reasoning call leaves the limit unchanged (and so not
above itself), and a 200000-token output allocation against a 100000-token
input budget yields a negative effective limit. -/
theorem claim_C10_witness :
    adjust_claude_37_token_limit (some 5) none = some 5 ∧ (5 : Int) ≤ 5 ∧
    (100000 : Int) ≠ 0 ∧ (200000 : Nat) ≠ 0 ∧
    is_claude_37 "claude-3-7-haiku" = true ∧
    (100000 : Int) ≤ ((200000 : Nat) : Int) ∧
    adjust_claude_37_token_limit (some 100000)
      (some ⟨some "claude-3-7-haiku", some 200000⟩) =
      some (100000 - ((200000 : Nat) : Int)) ∧
    (100000 : Int) - ((200000 : Nat) : Int) ≤ 0 := by
  refine ⟨by decide, ?_, by decide, by decide, by decide, by decide, ?_, ?_⟩
  · exact claim_C10_adjustment_bounds.1 (some 5) none 5 5 (by decide) rfl
  · exact (claim_C10_adjustment_bounds.2 100000 200000 "claude-3-7-haiku"
      (by decide) (by decide) (by decide) (by decide)).1
  · exact (claim_C10_adjustment_bounds.2 100000 200000 "claude-3-7-haiku"
      (by decide) (by decide) (by decide) (by decide)).2

/-- C4: role-specific `{role}_provider` / `{role}_model` keys override the
generic `provider` / `model` keys when present and non-empty for the
"research" and "planner" roles; otherwise — and always for the "default"
agent type — the generic keys are used. -/
theorem claim_C4_role_precedence (config : Config) :
    (cfgGet config "research_provider" ≠ "" →
      (get_provider_and_model_for_agent_type config "research").1 =
        cfgGet config "research_provider") ∧
    (cfgGet config "research_provider" = "" →
      (get_provider_and_model_for_agent_type config "research").1 =
        cfgGet config "provider") ∧
    (cfgGet config "research_model" ≠ "" →
      (get_provider_and_model_for_agent_type config "research").2 =
        cfgGet config "research_model") ∧
    (cfgGet config "research_model" = "" →
      (get_provider_and_model_for_agent_type config "research").2 =
        cfgGet config "model") ∧
    (cfgGet config "planner_provider" ≠ "" →
      (get_provider_and_model_for_agent_type config "planner").1 =
        cfgGet config "planner_provider") ∧
    (cfgGet config "planner_provider" = "" →
      (get_provider_and_model_for_agent_type config "planner").1 =
        cfgGet config "provider") ∧
    (cfgGet config "planner_model" ≠ "" →
      (get_provider_and_model_for_agent_type config "planner").2 =
        cfgGet config "planner_model") ∧
    (cfgGet config "planner_model" = "" →
      (get_provider_and_model_for_agent_type config "planner").2 =
        cfgGet config "model") ∧
    (get_provider_and_model_for_agent_type config "default" =
      (cfgGet config "provider", cfgGet config "model")) := by
  refine ⟨?_, ?_, ?_, ?_, ?_, ?_, ?_, ?_, gp_default config⟩ <;> intro h <;>
    simp [gp_research, gp_planner, pyOr, h]

/-- C4 witness: with config `{research_model: "m1", model: "m2"}`, the
"research" agent type resolves the model name to `"m1"` and the "default"
agent type resolves it to `"m2"`. -/
theorem claim_C4_witness :
    cfgGet [("research_model", "m1"), ("model", "m2")] "research_model" ≠ "" ∧
    (get_provider_and_model_for_agent_type
      [("research_model", "m1"), ("model", "m2")] "research").2 = "m1" ∧
    (get_provider_and_model_for_agent_type
      [("research_model", "m1"), ("model", "m2")] "default").2 = "m2" := by
  refine ⟨by decide, ?_, ?_⟩
  · have h := (claim_C4_role_precedence
      [("research_model", "m1"), ("model", "m2")]).2.2.1 (by decide)
    rw [h]
    rfl
  · have h := (claim_C4_role_precedence
      [("research_model", "m1"), ("model", "m2")]).2.2.2.2.2.2.2.2
    rw [h]
    rfl

/-- C5: in the fallback path (metadata provider failed), the model name is
normalized by removing all hyphens before the two-level table lookup; a
present record yields its token limit (through the adjustment), and a
missing provider or normalized name yields `None`. -/
theorem claim_C5_fallback_normalization (env : Env) (config : Config)
    (agent_type : String) (model : Option ChatModel) (err : String)
    (provider model_name : String)
    (hpm : get_provider_and_model_for_agent_type (effective_config env config)
      agent_type = (provider, model_name))
    (hinfo : env.modelInfo (composite_id provider model_name) =
      Except.error err) :
    (∀ v : Int,
      fallback_lookup env.models_params provider (removeHyphens model_name) =
        some (some v) →
      get_model_token_limit env config agent_type model =
        adjust_claude_37_token_limit (some v) model) ∧
    (fallback_lookup env.models_params provider (removeHyphens model_name) =
        none →
      get_model_token_limit env config agent_type model = none) := by
  constructor
  · intro v hv
    simp [get_model_token_limit, get_model_token_limit_run, hpm, litellm_limit,
      hinfo, fallback_stage, hv]
  · intro hnone
    simp [get_model_token_limit, get_model_token_limit_run, hpm, litellm_limit,
      hinfo, fallback_stage, hnone, adjust_claude_37_token_limit]

/-- C5 witness: with the metadata provider failing, model name `"claude-2"`
matches fallback-table key `"claude2"` under provider `"anthropic"` and the
resolved limit is its table value. -/
theorem claim_C5_witness :
    get_provider_and_model_for_agent_type
      (effective_config
        ⟨none, fun _ => Except.error "unknown model",
          [("anthropic", [("claude2", some 100000)])]⟩
        [("provider", "anthropic"), ("model", "claude-2")]) "default" =
      ("anthropic", "claude-2") ∧
    Env.modelInfo
      ⟨none, fun _ => Except.error "unknown model",
        [("anthropic", [("claude2", some 100000)])]⟩
      (composite_id "anthropic" "claude-2") = Except.error "unknown model" ∧
    fallback_lookup [("anthropic", [("claude2", some 100000)])] "anthropic"
      (removeHyphens "claude-2") = some (some 100000) ∧
    get_model_token_limit
      ⟨none, fun _ => Except.error "unknown model",
        [("anthropic", [("claude2", some 100000)])]⟩
      [("provider", "anthropic"), ("model", "claude-2")] "default" none =
      some 100000 := by
  refine ⟨rfl, rfl, rfl, ?_⟩
  have h := (claim_C5_fallback_normalization
    ⟨none, fun _ => Except.error "unknown model",
      [("anthropic", [("claude2", some 100000)])]⟩
    [("provider", "anthropic"), ("model", "claude-2")] "default" none
    "unknown model" "anthropic" "claude-2" rfl rfl).1 100000 rfl
  rw [h]
  rfl

/-- C6: if the metadata provider raises, or returns a record whose
`max_input_tokens` is missing, `None` or zero, resolution proceeds to the
static fallback-table stage without propagating the failure; a truthy
metadata value short-circuits the fallback and is returned after the
provider-specific adjustment. -/
theorem claim_C6_metadata_short_circuit (env : Env) (config : Config)
    (agent_type : String) (model : Option ChatModel)
    (provider model_name : String)
    (hpm : get_provider_and_model_for_agent_type (effective_config env config)
      agent_type = (provider, model_name)) :
    ((∃ err, env.modelInfo (composite_id provider model_name) =
        Except.error err) ∨
      env.modelInfo (composite_id provider model_name) = Except.ok none ∨
      env.modelInfo (composite_id provider model_name) = Except.ok (some 0) →
      get_model_token_limit_run env config agent_type model =
        fallback_stage env provider model_name model) ∧
    (∀ v : Int, v ≠ 0 →
      env.modelInfo (composite_id provider model_name) = Except.ok (some v) →
      get_model_token_limit env config agent_type model =
        adjust_claude_37_token_limit (some v) model) := by
  constructor
  · intro h
    have hlit : litellm_limit env (composite_id provider model_name) = none := by
      rcases h with ⟨err, herr⟩ | hok | hzero
      · simp [litellm_limit, herr]
      · simp [litellm_limit, hok]
      · simp [litellm_limit, hzero]
    simp [get_model_token_limit_run, hpm, hlit]
  · intro v hv hok
    have hlit : litellm_limit env (composite_id provider model_name) = some v := by
      simp [litellm_limit, hok, hv]
    simp [get_model_token_limit, get_model_token_limit_run, hpm, hlit]

/-- C6 witness: a failing provider falls through to the fallback stage, and a
truthy 180000 metadata value is returned directly, short-circuiting a
fallback table that would have said 100000. -/
theorem claim_C6_witness :
    get_provider_and_model_for_agent_type
      (effective_config
        ⟨none, fun _ => Except.error "boom",
          [("anthropic", [("claude2", some 100000)])]⟩
        [("provider", "anthropic"), ("model", "claude-2")]) "default" =
      ("anthropic", "claude-2") ∧
    get_model_token_limit_run
      ⟨none, fun _ => Except.error "boom",
        [("anthropic", [("claude2", some 100000)])]⟩
      [("provider", "anthropic"), ("model", "claude-2")] "default" none =
      fallback_stage
        ⟨none, fun _ => Except.error "boom",
          [("anthropic", [("claude2", some 100000)])]⟩
        "anthropic" "claude-2" none ∧
    (180000 : Int) ≠ 0 ∧
    get_model_token_limit
      ⟨none, fun _ => Except.ok (some 180000),
        [("anthropic", [("claude2", some 100000)])]⟩
      [("provider", "anthropic"), ("model", "claude-2")] "default" none =
      adjust_claude_37_token_limit (some 180000) none := by
  refine ⟨rfl, ?_, by decide, ?_⟩
  · exact (claim_C6_metadata_short_circuit
      ⟨none, fun _ => Except.error "boom",
        [("anthropic", [("claude2", some 100000)])]⟩
      [("provider", "anthropic"), ("model", "claude-2")] "default" none
      "anthropic" "claude-2" rfl).1 (Or.inl ⟨"boom", rfl⟩)
  · exact (claim_C6_metadata_short_circuit
      ⟨none, fun _ => Except.ok (some 180000),
        [("anthropic", [("claude2", some 100000)])]⟩
      [("provider", "anthropic"), ("model", "claude-2")] "default" none
      "anthropic" "claude-2" rfl).2 180000 (by decide) rfl

/-- C2: for every non-empty message list, every token counter and every
budget, both trimmers return at most as many messages as they received, and
the output is the mandatory prefix (first 2 messages for `state_modifier`,
first 1 for `sonnet_35_state_modifier`) followed by a contiguous,
order-preserving suffix of the remaining messages. -/
theorem claim_C2_trim_output_shape (tc : List Msg → Nat) (est : Msg → Nat)
    (b : Int) (messages : List Msg) (hne : messages ≠ []) :
    ((state_modifier tc b messages).length ≤ messages.length ∧
      ∃ s, s <:+ messages.drop 2 ∧
        state_modifier tc b messages = messages.take 2 ++ s) ∧
    ((sonnet_35_state_modifier est b messages).length ≤ messages.length ∧
      ∃ s, s <:+ messages.drop 1 ∧
        sonnet_35_state_modifier est b messages = messages.take 1 ++ s) := by
  cases messages with
  | nil => exact absurd rfl hne
  | cons first remaining =>
    have hsm : state_modifier tc b (first :: remaining) =
        (first :: remaining).take 2 ++
          trim_last tc (b - (tc ((first :: remaining).take 2) : Int))
            ((first :: remaining).drop 2) := rfl
    have hs1 := trim_last_suffix tc
      (b - (tc ((first :: remaining).take 2) : Int))
      ((first :: remaining).drop 2)
    have hss : sonnet_35_state_modifier est b (first :: remaining) =
        (first :: remaining).take 1 ++
          trim_last (estimate_messages_tokens est)
            (b - (estimate_messages_tokens est [first] : Int)) remaining := rfl
    have hs2 := trim_last_suffix (estimate_messages_tokens est)
      (b - (estimate_messages_tokens est [first] : Int)) remaining
    refine ⟨⟨?_, _, hs1, hsm⟩, ⟨?_, _, hs2, hss⟩⟩
    · rw [hsm]
      have hlen := hs1.length_le
      have hsplit := congrArg List.length
        (List.take_append_drop 2 (first :: remaining))
      simp only [List.length_append] at hsplit ⊢
      omega
    · rw [hss]
      have hlen := hs2.length_le
      simp only [List.length_append, List.length_take, List.length_cons]
      omega

/-- C2 witness: a concrete three-message history with the character-count
counter and a small budget. -/
theorem claim_C2_witness :
    ([⟨"system", "abc"⟩, ⟨"human", "de"⟩, ⟨"ai", "fg"⟩] : List Msg) ≠ [] ∧
    (((state_modifier (estimate_messages_tokens charCount) 3
        [⟨"system", "abc"⟩, ⟨"human", "de"⟩, ⟨"ai", "fg"⟩]).length ≤
      ([⟨"system", "abc"⟩, ⟨"human", "de"⟩, ⟨"ai", "fg"⟩] : List Msg).length ∧
      ∃ s, s <:+ ([⟨"system", "abc"⟩, ⟨"human", "de"⟩, ⟨"ai", "fg"⟩] :
          List Msg).drop 2 ∧
        state_modifier (estimate_messages_tokens charCount) 3
          [⟨"system", "abc"⟩, ⟨"human", "de"⟩, ⟨"ai", "fg"⟩] =
          ([⟨"system", "abc"⟩, ⟨"human", "de"⟩, ⟨"ai", "fg"⟩] :
            List Msg).take 2 ++ s) ∧
    ((sonnet_35_state_modifier charCount 3
        [⟨"system", "abc"⟩, ⟨"human", "de"⟩, ⟨"ai", "fg"⟩]).length ≤
      ([⟨"system", "abc"⟩, ⟨"human", "de"⟩, ⟨"ai", "fg"⟩] : List Msg).length ∧
      ∃ s, s <:+ ([⟨"system", "abc"⟩, ⟨"human", "de"⟩, ⟨"ai", "fg"⟩] :
          List Msg).drop 1 ∧
        sonnet_35_state_modifier charCount 3
          [⟨"system", "abc"⟩, ⟨"human", "de"⟩, ⟨"ai", "fg"⟩] =
          ([⟨"system", "abc"⟩, ⟨"human", "de"⟩, ⟨"ai", "fg"⟩] :
            List Msg).take 1 ++ s)) :=
  ⟨by decide, claim_C2_trim_output_shape (estimate_messages_tokens charCount)
    charCount 3 [⟨"system", "abc"⟩, ⟨"human", "de"⟩, ⟨"ai", "fg"⟩] (by decide)⟩

/-- C7 as stated is false at exact equality: with a 4-token first message,
`max_input_tokens = 4` (so the first message's estimated tokens are at least
`max_input_tokens`) and a zero-cost second message, the trimmed result keeps
the second message too, not exactly `[first_message]`. -/
theorem claim_C7_counterexample :
    (4 : Int) ≤ (estimate_messages_tokens charCount [⟨"system", "aaaa"⟩] : Int) ∧
    sonnet_35_state_modifier charCount 4 [⟨"system", "aaaa"⟩, ⟨"human", ""⟩] ≠
      [⟨"system", "aaaa"⟩] := by
  constructor
  · decide
  · decide

/-- C7 (amended): trimming never raises, and when the mandatory prefix's
token cost strictly exceeds `max_tokens`, the result is exactly the
mandatory prefix (zero additional messages); at exact equality, remaining
messages of zero estimated cost may additionally be retained. -/
theorem claim_C7_prefix_only_amended (tc : List Msg → Nat) (est : Msg → Nat)
    (b : Int) (messages : List Msg) (hne : messages ≠ []) :
    ((b < (tc (messages.take 2) : Int)) →
      state_modifier tc b messages = messages.take 2) ∧
    ((b < (estimate_messages_tokens est (messages.take 1) : Int)) →
      sonnet_35_state_modifier est b messages = messages.take 1) := by
  cases messages with
  | nil => exact absurd rfl hne
  | cons first remaining =>
    constructor
    · intro h
      have hneg := trim_last_of_neg tc
        (b - (tc ((first :: remaining).take 2) : Int)) (by omega)
        ((first :: remaining).drop 2)
      have hsm : state_modifier tc b (first :: remaining) =
          (first :: remaining).take 2 ++
            trim_last tc (b - (tc ((first :: remaining).take 2) : Int))
              ((first :: remaining).drop 2) := rfl
      rw [hsm, hneg, List.append_nil]
    · intro h
      have h' : b < (estimate_messages_tokens est [first] : Int) := h
      have hneg := trim_last_of_neg (estimate_messages_tokens est)
        (b - (estimate_messages_tokens est [first] : Int)) (by omega) remaining
      have hss : sonnet_35_state_modifier est b (first :: remaining) =
          first :: trim_last (estimate_messages_tokens est)
            (b - (estimate_messages_tokens est [first] : Int)) remaining := rfl
      rw [hss, hneg]
      rfl

/-- C7 witness: a prefix strictly over budget degrades to "prefix only" for
both trimmers. -/
theorem claim_C7_witness :
    ([⟨"system", "aaaa"⟩, ⟨"human", "bb"⟩, ⟨"ai", "c"⟩] : List Msg) ≠ [] ∧
    (3 : Int) < (estimate_messages_tokens charCount
      (([⟨"system", "aaaa"⟩, ⟨"human", "bb"⟩, ⟨"ai", "c"⟩] :
        List Msg).take 2) : Int) ∧
    state_modifier (estimate_messages_tokens charCount) 3
      [⟨"system", "aaaa"⟩, ⟨"human", "bb"⟩, ⟨"ai", "c"⟩] =
      ([⟨"system", "aaaa"⟩, ⟨"human", "bb"⟩, ⟨"ai", "c"⟩] : List Msg).take 2 ∧
    (3 : Int) < (estimate_messages_tokens charCount
      (([⟨"system", "aaaa"⟩, ⟨"human", "bb"⟩, ⟨"ai", "c"⟩] :
        List Msg).take 1) : Int) ∧
    sonnet_35_state_modifier charCount 3
      [⟨"system", "aaaa"⟩, ⟨"human", "bb"⟩, ⟨"ai", "c"⟩] =
      ([⟨"system", "aaaa"⟩, ⟨"human", "bb"⟩, ⟨"ai", "c"⟩] : List Msg).take 1 := by
  refine ⟨by decide, by decide, ?_, by decide, ?_⟩
  · exact (claim_C7_prefix_only_amended (estimate_messages_tokens charCount)
      charCount 3 [⟨"system", "aaaa"⟩, ⟨"human", "bb"⟩, ⟨"ai", "c"⟩]
      (by decide)).1 (by decide)
  · exact (claim_C7_prefix_only_amended (estimate_messages_tokens charCount)
      charCount 3 [⟨"system", "aaaa"⟩, ⟨"human", "bb"⟩, ⟨"ai", "c"⟩]
      (by decide)).2 (by decide)

/-- A within-budget history passes through `state_modifier` unchanged (with
the additive sum-of-estimates counter). -/
theorem state_modifier_full (est : Msg → Nat) (b : Int) (messages : List Msg)
    (h : (estimate_messages_tokens est messages : Int) ≤ b) :
    state_modifier (estimate_messages_tokens est) b messages = messages := by
  cases messages with
  | nil => rfl
  | cons first remaining =>
    have hsplit : estimate_messages_tokens est ((first :: remaining).take 2) +
        estimate_messages_tokens est ((first :: remaining).drop 2) =
        estimate_messages_tokens est (first :: remaining) := by
      conv_rhs => rw [← List.take_append_drop 2 (first :: remaining)]
      simp [estimate_messages_tokens]
      omega
    have hfull := trim_last_full (estimate_messages_tokens est)
      (b - (estimate_messages_tokens est ((first :: remaining).take 2) : Int))
      ((first :: remaining).drop 2)
      (fun t ht => by
        have h1 := sum_le_of_suffix est ht
        omega)
    have hsm : state_modifier (estimate_messages_tokens est) b
        (first :: remaining) =
        (first :: remaining).take 2 ++
          trim_last (estimate_messages_tokens est)
            (b - (estimate_messages_tokens est ((first :: remaining).take 2) :
              Int)) ((first :: remaining).drop 2) := rfl
    rw [hsm, hfull, List.take_append_drop]

/-- A within-budget history passes through `sonnet_35_state_modifier`
unchanged. -/
theorem sonnet_35_full (est : Msg → Nat) (b : Int) (messages : List Msg)
    (h : (estimate_messages_tokens est messages : Int) ≤ b) :
    sonnet_35_state_modifier est b messages = messages := by
  cases messages with
  | nil => rfl
  | cons first remaining =>
    have hsplit : estimate_messages_tokens est [first] +
        estimate_messages_tokens est remaining =
        estimate_messages_tokens est (first :: remaining) := by
      simp [estimate_messages_tokens]
    have hfull := trim_last_full (estimate_messages_tokens est)
      (b - (estimate_messages_tokens est [first] : Int)) remaining
      (fun t ht => by
        have h1 := sum_le_of_suffix est ht
        omega)
    have hss : sonnet_35_state_modifier est b (first :: remaining) =
        first :: trim_last (estimate_messages_tokens est)
          (b - (estimate_messages_tokens est [first] : Int)) remaining := rfl
    rw [hss, hfull]

/-- C8: a history whose total token count (as measured by the counter in
use) is within `max_tokens` is returned unchanged by both trimmers, and
consequently re-trimming an already-trimmed, within-budget history with the
same counter and budget returns it unchanged. -/
theorem claim_C8_within_budget_identity (est : Msg → Nat) (b : Int)
    (messages : List Msg) :
    ((estimate_messages_tokens est messages : Int) ≤ b →
      state_modifier (estimate_messages_tokens est) b messages = messages ∧
      sonnet_35_state_modifier est b messages = messages) ∧
    ((estimate_messages_tokens est
        (state_modifier (estimate_messages_tokens est) b messages) : Int) ≤ b →
      state_modifier (estimate_messages_tokens est) b
          (state_modifier (estimate_messages_tokens est) b messages) =
        state_modifier (estimate_messages_tokens est) b messages) ∧
    ((estimate_messages_tokens est
        (sonnet_35_state_modifier est b messages) : Int) ≤ b →
      sonnet_35_state_modifier est b
          (sonnet_35_state_modifier est b messages) =
        sonnet_35_state_modifier est b messages) :=
  ⟨fun h => ⟨state_modifier_full est b messages h,
    sonnet_35_full est b messages h⟩,
   fun h => state_modifier_full est b _ h,
   fun h => sonnet_35_full est b _ h⟩

/-- C8 witness: a 5-token three-message history is left unchanged under a
10-token budget, including on re-trim. -/
theorem claim_C8_witness :
    (estimate_messages_tokens charCount
      [⟨"system", "ab"⟩, ⟨"human", "cd"⟩, ⟨"ai", "e"⟩] : Int) ≤ 10 ∧
    state_modifier (estimate_messages_tokens charCount) 10
      [⟨"system", "ab"⟩, ⟨"human", "cd"⟩, ⟨"ai", "e"⟩] =
      [⟨"system", "ab"⟩, ⟨"human", "cd"⟩, ⟨"ai", "e"⟩] ∧
    sonnet_35_state_modifier charCount 10
      [⟨"system", "ab"⟩, ⟨"human", "cd"⟩, ⟨"ai", "e"⟩] =
      [⟨"system", "ab"⟩, ⟨"human", "cd"⟩, ⟨"ai", "e"⟩] :=
  ⟨by decide,
   ((claim_C8_within_budget_identity charCount 10
      [⟨"system", "ab"⟩, ⟨"human", "cd"⟩, ⟨"ai", "e"⟩]).1 (by decide)).1,
   ((claim_C8_within_budget_identity charCount 10
      [⟨"system", "ab"⟩, ⟨"human", "cd"⟩, ⟨"ai", "e"⟩]).1 (by decide)).2⟩
